import Mathlib

/-!
Verification of the session/concurrency core and policy engine of the
airminal-assistant gateway.  The definitions below are a shallow embedding of
the JavaScript source: `PermissionSystem` (permissions module) and `Gateway`
(core module).  Pure functions are translated directly; the mutable maps of
the gateway (in-memory session cache, on-disk session files) become explicit
association lists threaded through the functions; the per-key promise chain
becomes sequential execution of units of work with caught failures.
-/

namespace Empli

/-! ## Character classes (JS regex `\w`, `\s`, octal digits) -/

/-- JS word character class `\w` = `[A-Za-z0-9_]`, used for `\b` boundaries. -/
def isWordChar (c : Char) : Bool := c.isAlpha || c.isDigit || c = '_'

/-- JS whitespace class `\s` (ASCII part: space, tab, newline, CR, VT, FF). -/
def isSpaceChar (c : Char) : Bool :=
  c = ' ' || c = '\t' || c = '\n' || c = '\r' || c = '\x0b' || c = '\x0c'

def isOctalDigit (c : Char) : Bool := '0' ≤ c && c ≤ '7'

/-- Whether an optional previous character is a word character (for `\b`). -/
def wordOpt : Option Char → Bool
  | none => false
  | some c => isWordChar c

/-- A word boundary holds after a word character iff the next character
(if any) is not a word character. -/
def notWordNext : List Char → Bool
  | [] => true
  | c :: _ => !isWordChar c

/-- If `w` is a literal prefix of `s`, return the remainder of `s`. -/
def dropExact (w : List Char) (s : List Char) : Option (List Char) :=
  match w, s with
  | [], rest => some rest
  | _ :: _, [] => none
  | a :: w', b :: s' => if a = b then dropExact w' s' else none

/-- Try a core matcher at every position of the string, tracking the previous
character so the matcher can decide `\b` conditions.  This is the unanchored
`RegExp.test` search. -/
def scanAux (m : Option Char → List Char → Bool) (prev : Option Char) :
    List Char → Bool
  | [] => m prev []
  | c :: cs => m prev (c :: cs) || scanAux m (some c) cs

def scanStr (m : Option Char → List Char → Bool) (s : String) : Bool :=
  scanAux m none s.data

/-- Matcher for `\bword\b`. -/
def wordCore (w : List Char) (prev : Option Char) (s : List Char) : Bool :=
  !wordOpt prev &&
    match dropExact w s with
    | some rest => notWordNext rest
    | none => false

/-- `RegExp.test` for `\bword\b`. -/
def containsWord (w : String) (s : String) : Bool := scanStr (wordCore w.data) s

/-! ## The fifteen `DANGEROUS_PATTERNS` of the permission system -/

/-- `/\brm\s+-rf?\b/` -/
def rmCore (prev : Option Char) (s : List Char) : Bool :=
  !wordOpt prev &&
    match dropExact ['r', 'm'] s with
    | some (c :: cs) =>
      isSpaceChar c &&
        (match dropExact ['-', 'r'] (cs.dropWhile isSpaceChar) with
         | some ('f' :: rest) => notWordNext rest
         | some rest => notWordNext rest
         | none => false)
    | _ => false

/-- `/\bchmod\s+[0-7]{3,4}\b/` (greedy quantifier with backtracking). -/
def chmodCore (prev : Option Char) (s : List Char) : Bool :=
  !wordOpt prev &&
    match dropExact ['c', 'h', 'm', 'o', 'd'] s with
    | some (c :: cs) =>
      isSpaceChar c &&
        (match cs.dropWhile isSpaceChar with
         | d1 :: d2 :: d3 :: rest =>
           isOctalDigit d1 && isOctalDigit d2 && isOctalDigit d3 &&
             (match rest with
              | d4 :: rest2 =>
                if isOctalDigit d4 then notWordNext rest2 else !isWordChar d4
              | [] => true)
         | _ => false)
    | _ => false

/-- `\s*(bash|sh|zsh)\b` immediately after a pipe. -/
def shellAfterPipe (s : List Char) : Bool :=
  let r := s.dropWhile isSpaceChar
  (match dropExact ['b', 'a', 's', 'h'] r with
   | some rest => notWordNext rest
   | none => false) ||
  (match dropExact ['s', 'h'] r with
   | some rest => notWordNext rest
   | none => false) ||
  (match dropExact ['z', 's', 'h'] r with
   | some rest => notWordNext rest
   | none => false)

/-- `.*\|\s*(bash|sh|zsh)\b`: find a pipe (the `.*` cannot cross a newline)
followed by a shell name. -/
def pipeToShell : List Char → Bool
  | [] => false
  | c :: cs =>
    if c = '\n' then false
    else if c = '|' then shellAfterPipe cs || pipeToShell cs
    else pipeToShell cs

/-- `/\bcurl\b.*\|\s*(bash|sh|zsh)\b/` and the `wget` variant. -/
def curlPipeCore (w : List Char) (prev : Option Char) (s : List Char) : Bool :=
  !wordOpt prev &&
    match dropExact w s with
    | some rest => notWordNext rest && pipeToShell rest
    | none => false

/-- `/\bdd\s+if=/` -/
def ddCore (prev : Option Char) (s : List Char) : Bool :=
  !wordOpt prev &&
    match dropExact ['d', 'd'] s with
    | some (c :: cs) =>
      isSpaceChar c && (dropExact ['i', 'f', '='] (cs.dropWhile isSpaceChar)).isSome
    | _ => false

/-- `/>\s*\/dev\//` -/
def devWriteCore (_prev : Option Char) (s : List Char) : Bool :=
  match s with
  | '>' :: rest => (dropExact ['/', 'd', 'e', 'v', '/'] (rest.dropWhile isSpaceChar)).isSome
  | _ => false

/-- `word1\s+word2` with no boundaries (used for the case-insensitive SQL
patterns, applied to the lower-cased command). -/
def seqSpacedCore (w1 w2 : List Char) (_prev : Option Char) (s : List Char) : Bool :=
  match dropExact w1 s with
  | some (c :: cs) => isSpaceChar c && (dropExact w2 (cs.dropWhile isSpaceChar)).isSome
  | _ => false

def lowerStr (s : String) : String := String.mk (s.data.map Char.toLower)

/-- `DANGEROUS_PATTERNS.some(p => p.test(trimmed))`: the disjunction of the
fifteen danger regexes, in source order. -/
def dangerousMatch (cmd : String) : Bool :=
  scanStr rmCore cmd ||
  containsWord "sudo" cmd ||
  scanStr chmodCore cmd ||
  scanStr (curlPipeCore ['c', 'u', 'r', 'l']) cmd ||
  scanStr (curlPipeCore ['w', 'g', 'e', 't']) cmd ||
  scanStr ddCore cmd ||
  containsWord "mkfs" cmd ||
  containsWord "format" cmd ||
  scanStr devWriteCore cmd ||
  containsWord "shutdown" cmd ||
  containsWord "reboot" cmd ||
  containsWord "killall" cmd ||
  containsWord "pkill" cmd ||
  scanStr (seqSpacedCore ['d', 'r', 'o', 'p'] ['t', 'a', 'b', 'l', 'e']) (lowerStr cmd) ||
  scanStr (seqSpacedCore ['d', 'r', 'o', 'p'] ['d', 'a', 't', 'a', 'b', 'a', 's', 'e']) (lowerStr cmd)

/-! ## Permission system fixed sets -/

/-- `SAFE_COMMANDS` (the source `Set` literal, in order). -/
def safeCommands : List String := [
  "ls", "cat", "head", "tail", "wc", "date", "whoami", "echo",
  "pwd", "which", "file", "stat", "du", "df", "uname", "env",
  "hostname", "uptime", "id", "groups", "printenv", "locale",
  "find", "grep", "awk", "sed", "sort", "uniq", "tr", "cut",
  "diff", "md5sum", "sha256sum", "base64", "wc",
  "git status", "git log", "git diff", "git branch", "git remote",
  "node --version", "npm --version", "python --version", "python3 --version"]

/-- `SAFE_TOOLS` -/
def safeTools : List String := [
  "read_file", "list_directory", "search_files", "system_info",
  "list_processes", "clipboard_read", "memory_search", "memory_list",
  "list_scheduled", "web_search", "web_fetch",
  "calendar_list_events", "calendar_get_event", "calendar_find_free_time", "calendar_list_calendars",
  "drive_list_files", "drive_get_file", "drive_read_file",
  "sheets_read", "sheets_get_info",
  "github_list_repos", "github_get_repo", "github_list_issues", "github_get_issue",
  "github_list_prs", "github_get_pr", "github_get_file", "github_list_files",
  "github_search_code", "github_list_workflows", "github_notifications",
  "sms_list", "call_list", "phone_lookup",
  "notion_search", "notion_get_page", "notion_query_database", "notion_get_database",
  "docker_list_containers", "docker_logs", "docker_inspect", "docker_stats",
  "docker_list_images", "docker_compose_ps", "docker_list_networks", "docker_list_volumes",
  "db_query", "db_list_tables", "db_describe_table", "db_list_databases", "db_table_stats"]

/-- `MODERATE_TOOLS` (note: it does not contain `delete_file`). -/
def moderateTools : List String := [
  "write_file", "append_file", "edit_file", "copy_file", "move_file",
  "web_download", "clipboard_write", "notify", "open", "screenshot",
  "memory_save", "memory_delete", "schedule_task", "cancel_scheduled",
  "calendar_create_event", "calendar_update_event",
  "drive_upload_file", "drive_create_file", "drive_create_folder", "drive_share_file", "drive_move_file",
  "sheets_write", "sheets_append", "sheets_create", "sheets_add_sheet", "sheets_clear",
  "github_create_repo", "github_create_issue", "github_update_issue", "github_comment_issue",
  "github_create_pr", "github_trigger_workflow",
  "sms_send", "call_make",
  "notion_create_page", "notion_update_page", "notion_append_blocks", "notion_create_database",
  "docker_run", "docker_start", "docker_restart", "docker_exec", "docker_pull", "docker_build",
  "docker_compose_up",
  "db_insert", "db_update", "db_create_table", "db_export", "db_import"]

/-- `DANGEROUS_TOOLS` (never consulted by `check`; listed for completeness). -/
def dangerousTools : List String := [
  "bash", "delete_file", "kill_process",
  "calendar_delete_event", "drive_delete_file",
  "github_merge_pr",
  "docker_stop", "docker_remove", "docker_compose_down", "docker_system_prune",
  "db_execute", "db_delete"]

/-- The `commonCommands` set local to `_checkBash`. -/
def commonCommands : List String := [
  "mkdir", "touch", "cp", "mv", "ln", "tar", "zip", "unzip", "gzip",
  "curl", "wget", "ssh", "scp", "rsync",
  "git", "npm", "npx", "yarn", "pnpm", "pip", "pip3", "python", "python3", "node",
  "docker", "brew", "apt", "apt-get", "code", "open", "xdg-open",
  "make", "cmake", "cargo", "go", "java", "javac", "ruby", "php"]

/-! ## Permission system state machine -/

/-- JS `String.prototype.trim` (ASCII whitespace model). -/
def trimStr (s : String) : String :=
  String.mk (((s.data.dropWhile isSpaceChar).reverse.dropWhile isSpaceChar).reverse)

/-- `trimmed.split(/\s+/)[0]` on an already-trimmed string. -/
def firstToken (s : String) : String :=
  String.mk (s.data.takeWhile (fun c => !isSpaceChar c))

inductive CheckResult where
  | allowed
  | denied
  | needs_approval
deriving DecidableEq, Repr

/-- The persisted decision store `{ allowed: [...], denied: [...] }`. -/
structure Approvals where
  allowed : List String
  denied : List String
deriving DecidableEq, Repr

/-- A tool-call input object.  `command` is the `command` field (absent =
`none`), `recursive` the `recursive` flag, and `serialized` stands for
`JSON.stringify(input)`, treated as an opaque canonical rendering. -/
structure ToolInput where
  command : Option String := none
  recursive : Bool := false
  serialized : String := ""
deriving DecidableEq, Repr

/-- `PermissionSystem._checkBash`. -/
def checkBash (ap : Approvals) (command : Option String) : CheckResult :=
  match command with
  | none => .denied
  | some cmd =>
    if cmd = "" then .denied
    else
      let trimmed := trimStr cmd
      let baseCmd := firstToken trimmed
      if safeCommands.contains baseCmd || safeCommands.contains trimmed then .allowed
      else if dangerousMatch trimmed then
        (if ap.allowed.contains ("bash:" ++ trimmed) then .allowed
         else if ap.denied.contains ("bash:" ++ trimmed) then .denied
         else .needs_approval)
      else if ap.allowed.contains ("bash_cmd:" ++ baseCmd) then .allowed
      else if ap.allowed.contains ("bash:" ++ trimmed) then .allowed
      else if ap.denied.contains ("bash:" ++ trimmed) then .denied
      else if commonCommands.contains baseCmd then .allowed
      else .needs_approval

/-- `PermissionSystem._checkApproval`. -/
def checkApproval (ap : Approvals) (toolName : String) (input : ToolInput) : CheckResult :=
  let key := toolName ++ ":" ++ input.serialized
  if ap.allowed.contains key then .allowed
  else if ap.denied.contains key then .denied
  else .needs_approval

/-- `PermissionSystem.check`. -/
def check (ap : Approvals) (toolName : String) (input : ToolInput) : CheckResult :=
  if safeTools.contains toolName then .allowed
  else if moderateTools.contains toolName then
    (if toolName == "delete_file" && input.recursive then checkApproval ap toolName input
     else .allowed)
  else if toolName = "bash" then checkBash ap input.command
  else if toolName = "kill_process" then checkApproval ap toolName input
  else checkApproval ap toolName input

/-- `PermissionSystem.approve`: record a human decision (idempotent push,
persisted immediately — the returned value is the persisted store). -/
def approve (ap : Approvals) (toolName : String) (input : ToolInput)
    (allowed : Bool) : Approvals :=
  let key :=
    if toolName = "bash" then
      "bash:" ++ (match input.command with | some c => c | none => "undefined")
    else toolName ++ ":" ++ input.serialized
  if allowed then
    (if ap.allowed.contains key then ap else { ap with allowed := ap.allowed ++ [key] })
  else
    (if ap.denied.contains key then ap else { ap with denied := ap.denied ++ [key] })

/-! ## Gateway data model

`Gateway` state: `this.sessions` (in-memory cache) and the session files on
disk become association lists.  A session file is modelled as the list of
turns it contains (the JSONL framing round-trips one record per turn; the
corrupt-file fallback to an empty session is below the granularity of this
model, which only stores well-formed files). -/

inductive Role where
  | user
  | assistant
deriving DecidableEq, Repr

/-- One history entry as pushed by `_processMessage` / parsed by
`_loadSession`.  Fields absent from a record are `none`. -/
structure Turn where
  role : Role
  content : String
  sender : Option String := none
  timestamp : Nat := 0
  channel : Option String := none
  conversationId : Option String := none
deriving DecidableEq, Repr

structure Session where
  history : List Turn
  conversationId : Option String
  lastActivity : Nat
deriving DecidableEq, Repr

/-- Outbound reply `{ reply, sessionKey }` returned by `_processMessage`. -/
structure Reply where
  reply : String
  sessionKey : String
deriving DecidableEq, Repr

/-- The inbound event at the `handleMessage` boundary (metadata omitted:
it is passed through to the agent call, which is abstracted below). -/
structure InboundEvent where
  channel : String
  chatId : String
  chatName : Option String := none
  sender : String
  text : String
  timestamp : Option Nat := none
deriving DecidableEq, Repr

/-- The parsed agent response as produced by `_callAgent` on a 2xx JSON
response: `reply` is `data.reply || data.response || data.text || null` and
`conversationId` the analogous alias coalescing. -/
structure AgentResponse where
  reply : Option String := none
  conversationId : Option String := none
deriving DecidableEq, Repr

/-- The behaviour of one agent dispatch, injected as an oracle since the
HTTP call is external I/O: `.responds none` is `_callAgent` returning `null`
(timeout, non-2xx, network error, malformed JSON); `.responds (some r)` a
parsed response; `.throws` a failure that escapes the unit of work (it is
caught by the `.catch` in `handleMessage`). -/
inductive AgentBehavior where
  | throws
  | responds (resp : Option AgentResponse)
deriving DecidableEq, Repr

structure Config where
  endpoint : String
  maxHistory : Nat
  /-- channel name to per-channel endpoint override (the `""` default means
  unset, as in the config defaults). -/
  channels : List (String × String)
deriving DecidableEq, Repr

/-- Gateway mutable state: in-memory session cache and the session files. -/
structure GatewayState where
  sessions : List (String × Session)
  disk : List (String × List Turn)
deriving DecidableEq, Repr

/-! ## Association-list map operations (JS `Map.get` / `Map.set`) -/

def getEntry {α : Type} (m : List (String × α)) (k : String) : Option α :=
  match m with
  | [] => none
  | e :: rest => if e.1 = k then some e.2 else getEntry rest k

def setEntry {α : Type} (m : List (String × α)) (k : String) (v : α) :
    List (String × α) :=
  match m with
  | [] => [(k, v)]
  | e :: rest => if e.1 = k then (k, v) :: rest else e :: setEntry rest k v

/-! ## Gateway operations -/

/-- `_sessionPath`: `sessionKey.replace(/[^a-zA-Z0-9_-]/g, '_')` plus the
`.jsonl` suffix (the constant sessions directory is dropped). -/
def sanitizeKey (s : String) : String :=
  String.mk (s.data.map (fun c => if c.isAlphanum || c = '_' || c = '-' then c else '_'))

def sessionPath (sessionKey : String) : String :=
  sanitizeKey sessionKey ++ ".jsonl"

/-- The token-recovery scan in `_loadSession`: the most recent assistant
turn's `conversationId`, if that field is truthy. -/
def lastAssistantToken (h : List Turn) : Option String :=
  match h.reverse.find? (fun t => t.role == .assistant) with
  | some t =>
    match t.conversationId with
    | some cid => if cid = "" then none else some cid
    | none => none
  | none => none

/-- `_loadSession`: memory cache first, else parse the file from disk,
else a fresh empty session; the loaded session is cached. -/
def loadSession (st : GatewayState) (sessionKey : String) (now : Nat) :
    Session × GatewayState :=
  match getEntry st.sessions sessionKey with
  | some s => (s, st)
  | none =>
    let session : Session :=
      match getEntry st.disk (sessionPath sessionKey) with
      | some turns =>
        { history := turns, conversationId := lastAssistantToken turns, lastActivity := now }
      | none => { history := [], conversationId := none, lastActivity := now }
    (session, { st with sessions := setEntry st.sessions sessionKey session })

/-- `_saveSession`: update the cache and rewrite the whole history file. -/
def saveSession (st : GatewayState) (sessionKey : String) (session : Session) :
    GatewayState :=
  { sessions := setEntry st.sessions sessionKey session,
    disk := setEntry st.disk (sessionPath sessionKey) session.history }

/-- `this.config.maxHistory || 20` (`0` is falsy). -/
def effMaxHistory (cfg : Config) : Nat :=
  if cfg.maxHistory = 0 then 20 else cfg.maxHistory

/-- `if (history.length > maxHistory) history = history.slice(-maxHistory)`. -/
def truncateHistory (cfg : Config) (h : List Turn) : List Turn :=
  if h.length > effMaxHistory cfg then h.drop (h.length - effMaxHistory cfg) else h

/-- The user turn pushed by `_processMessage` (`timestamp || Date.now()`). -/
def userTurnOf (ev : InboundEvent) (now : Nat) : Turn :=
  { role := .user, content := ev.text, sender := some ev.sender,
    timestamp := match ev.timestamp with | some t => if t = 0 then now else t | none => now,
    channel := some ev.channel }

/-- Endpoint resolution: `channelConfig.endpoint || this.config.endpoint`. -/
def resolveEndpoint (cfg : Config) (channel : String) : String :=
  let channelEndpoint := (getEntry cfg.channels channel).getD ""
  if channelEndpoint = "" then cfg.endpoint else channelEndpoint

/-- `const sessionKey = channel + ":" + chatId` in `handleMessage`. -/
def sessionKeyOf (ev : InboundEvent) : String := ev.channel ++ ":" ++ ev.chatId

/-- The session after the inbound user turn is pushed and the history
truncated to `maxHistory` (the state of the shared session object just
before the agent call). -/
def sessionAfterInbound (cfg : Config) (ev : InboundEvent) (now : Nat)
    (st : GatewayState) : Session :=
  let load := loadSession st (sessionKeyOf ev) now
  { load.1 with history := truncateHistory cfg (load.1.history ++ [userTurnOf ev now]) }

/-- The gateway state just before the agent call: the in-memory cache holds
the mutated session object (the JS code mutates the very object stored in
`this.sessions`), the disk is untouched. -/
def stateAfterInbound (cfg : Config) (ev : InboundEvent) (now : Nat)
    (st : GatewayState) : GatewayState :=
  let load := loadSession st (sessionKeyOf ev) now
  { load.2 with
    sessions := setEntry load.2.sessions (sessionKeyOf ev) (sessionAfterInbound cfg ev now st) }

/-- `if (agentResponse.conversationId) session.conversationId = ...`. -/
def sessionWithToken (session : Session) (resp : AgentResponse) : Session :=
  match resp.conversationId with
  | some cid => if cid = "" then session else { session with conversationId := some cid }
  | none => session

/-- The session written by `_saveSession` after a successful dispatch: token
updated, assistant turn appended, `lastActivity` refreshed. -/
def sessionAfterReply (cfg : Config) (ev : InboundEvent) (now : Nat)
    (st : GatewayState) (resp : AgentResponse) (reply : String) : Session :=
  { sessionWithToken (sessionAfterInbound cfg ev now st) resp with
    history := (sessionWithToken (sessionAfterInbound cfg ev now st) resp).history ++
      [{ role := .assistant, content := reply, timestamp := now }],
    lastActivity := now }

/-- `_processMessage`: one unit of work.  The result is `Except` so that a
failure escaping the unit (`AgentBehavior.throws`) is distinguishable from a
normal no-reply outcome; the state mutations made before the agent call are
visible in the cache even on the early returns. -/
def processMessage (cfg : Config) (ev : InboundEvent) (beh : AgentBehavior)
    (now : Nat) (st : GatewayState) : Except Unit (Option Reply) × GatewayState :=
  let st2 := stateAfterInbound cfg ev now st
  if resolveEndpoint cfg ev.channel = "" then (Except.ok none, st2)
  else
    match beh with
    | .throws => (Except.error (), st2)
    | .responds none => (Except.ok none, st2)
    | .responds (some resp) =>
      match resp.reply with
      | none => (Except.ok none, st2)
      | some reply =>
        if reply = "" then (Except.ok none, st2)
        else
          (Except.ok (some { reply := reply, sessionKey := sessionKeyOf ev }),
           saveSession st2 (sessionKeyOf ev) (sessionAfterReply cfg ev now st resp reply))

/-- One unit of work as chained by `handleMessage`: the `.catch` converts any
failure into a resolved `null` before the promise becomes the new tail. -/
def runUnit (cfg : Config) (ev : InboundEvent) (beh : AgentBehavior) (now : Nat)
    (st : GatewayState) : Option Reply × GatewayState :=
  match processMessage cfg ev beh now st with
  | (Except.ok r, st') => (r, st')
  | (Except.error _, st') => (none, st')

/-- A submitted unit of work: the inbound event plus the dispatch behaviour
and the clock value for that unit. -/
abbrev Ev : Type := InboundEvent × AgentBehavior × Nat

def runUnitT (cfg : Config) (u : Ev) (st : GatewayState) :
    Option Reply × GatewayState :=
  runUnit cfg u.1 u.2.1 u.2.2 st

/-- The denotation of one key's promise chain: units of work run strictly one
after another, each outcome recorded in order (a caught failure records
`none`). -/
def runChain (cfg : Config) (evs : List Ev) (st : GatewayState) :
    List (Option Reply) × GatewayState :=
  match evs with
  | [] => ([], st)
  | u :: rest =>
    let r := runUnitT cfg u st
    let rs := runChain cfg rest r.2
    (r.1 :: rs.1, rs.2)

/-! ## The per-key router, as a small-step system

`handleMessage` keeps, per session key, the tail of a promise chain in
`this.locks`; a new submission is attached behind the current tail and the
chain executes units strictly one at a time, in attachment order.  For a
fixed key this is a FIFO queue of pending units: `submit` appends a unit
(non-blocking), `step` runs the unit at the head of the queue to completion
(a unit is atomic here because the next `.then` callback only runs after the
previous unit settles).  Interleaving `submit` and `step` actions models
events arriving while earlier units are still in flight. -/

structure RouterState where
  queue : List Ev
  gw : GatewayState
  outputs : List (Option Reply)

inductive RouterAction where
  | submit (ev : InboundEvent) (beh : AgentBehavior) (now : Nat)
  | step

def applyAction (cfg : Config) (st : RouterState) : RouterAction → RouterState
  | .submit ev beh now => { st with queue := st.queue ++ [(ev, beh, now)] }
  | .step =>
    match st.queue with
    | [] => st
    | u :: rest =>
      let r := runUnitT cfg u st.gw
      { queue := rest, gw := r.2, outputs := st.outputs ++ [r.1] }

def applyTrace (cfg : Config) (st : RouterState) : List RouterAction → RouterState
  | [] => st
  | a :: rest => applyTrace cfg (applyAction cfg st a) rest

/-- The units submitted in a trace, in submission order. -/
def submissions : List RouterAction → List Ev
  | [] => []
  | .submit ev beh now :: rest => (ev, beh, now) :: submissions rest
  | .step :: rest => submissions rest

/-! ## Concrete fixtures used by witnesses and counterexamples -/

def emptyApprovals : Approvals := { allowed := [], denied := [] }

def gwEmpty : GatewayState := { sessions := [], disk := [] }

/-- A configuration with the default endpoint set and `maxHistory = 3`. -/
def cfgM3 : Config := { endpoint := "http://agent", maxHistory := 3, channels := [] }

def mkEvent (n : Nat) : InboundEvent :=
  { channel := "webchat", chatId := "c", sender := "u",
    text := "m" ++ toString n, timestamp := some n }

def okBehavior (n : Nat) : AgentBehavior :=
  .responds (some { reply := some ("r" ++ toString n) })

/-- Five inbound events on the same key, each answered successfully:
five inbound/outbound turn pairs. -/
def fivePairs : List Ev :=
  [(mkEvent 1, okBehavior 1, 1), (mkEvent 2, okBehavior 2, 2),
   (mkEvent 3, okBehavior 3, 3), (mkEvent 4, okBehavior 4, 4),
   (mkEvent 5, okBehavior 5, 5)]

/-- A persisted history whose assistant turns carry continuation tokens
(the construction prescribed by the spec's test for token recovery). -/
def tokenHistory : List Turn :=
  [{ role := .user, content := "q1" },
   { role := .assistant, content := "a1", conversationId := some "T1" },
   { role := .user, content := "q2" },
   { role := .assistant, content := "a2", conversationId := some "T2" }]

/-- The gateway state after one unit of work whose dispatch succeeded and
returned continuation token `"T"`. -/
def savedAfterToken : GatewayState :=
  (runUnit cfgM3 (mkEvent 1)
    (.responds (some { reply := some "ok", conversationId := some "T" })) 7 gwEmpty).2

/-- An interleaved trace: a submission processed, then two more submitted
(the first of which will fail) before the worker catches up. -/
def traceFix : List RouterAction :=
  [.submit (mkEvent 1) (okBehavior 1) 1, .step,
   .submit (mkEvent 2) .throws 2, .submit (mkEvent 3) (okBehavior 3) 3,
   .step, .step]

/-- A decision store holding the same canonical keys in both lists. -/
def apBoth : Approvals :=
  { allowed := ["foo:x", "bash:rm -rf /tmp/x"],
    denied := ["foo:x", "bash:rm -rf /tmp/x"] }

/-- Dispatch outcomes that `_processMessage` treats as "no reply from agent":
`_callAgent` returning `null` (timeout, non-2xx, malformed response) or a
response whose reply field is missing or empty. -/
def dispatchFails (beh : AgentBehavior) : Bool :=
  match beh with
  | .throws => false
  | .responds none => true
  | .responds (some resp) =>
    match resp.reply with
    | none => true
    | some s => s == ""

/-- Every session file on disk holds at most `effMaxHistory cfg + 1` turns. -/
def diskBounded (cfg : Config) (st : GatewayState) : Bool :=
  st.disk.all (fun e => decide (e.2.length ≤ effMaxHistory cfg + 1))

/-! ## Helper lemmas -/

theorem getEntry_setEntry_self {α : Type} (m : List (String × α)) (k : String) (v : α) :
    getEntry (setEntry m k v) k = some v := by
  induction m with
  | nil => simp [setEntry, getEntry]
  | cons e rest ih =>
    by_cases h : e.1 = k
    · simp [setEntry, getEntry, h]
    · simp [setEntry, getEntry, h, ih]

theorem loadSession_disk (st : GatewayState) (k : String) (now : Nat) :
    (loadSession st k now).2.disk = st.disk := by
  unfold loadSession
  split <;> rfl

theorem stateAfterInbound_disk (cfg : Config) (ev : InboundEvent) (now : Nat)
    (st : GatewayState) : (stateAfterInbound cfg ev now st).disk = st.disk := by
  simp [stateAfterInbound, loadSession_disk]

theorem sessionWithToken_history (s : Session) (resp : AgentResponse) :
    (sessionWithToken s resp).history = s.history := by
  unfold sessionWithToken
  split
  · split <;> rfl
  · rfl

theorem string_append_right_inj {a b c : String} (h : a ++ b = a ++ c) : b = c := by
  have hd := congrArg String.data h
  simp only [String.data_append] at hd
  have h2 := List.append_cancel_left hd
  cases b; cases c; exact congrArg String.mk h2

theorem truncateHistory_length_le (cfg : Config) (h : List Turn) :
    (truncateHistory cfg h).length ≤ effMaxHistory cfg := by
  unfold truncateHistory
  split
  · simp only [List.length_drop]
    omega
  · omega

theorem sessionAfterReply_length_le (cfg : Config) (ev : InboundEvent) (now : Nat)
    (st : GatewayState) (resp : AgentResponse) (reply : String) :
    (sessionAfterReply cfg ev now st resp reply).history.length ≤
      effMaxHistory cfg + 1 := by
  have h := truncateHistory_length_le cfg
    ((loadSession st (sessionKeyOf ev) now).1.history ++ [userTurnOf ev now])
  simp only [sessionAfterReply, sessionWithToken_history, sessionAfterInbound,
    List.length_append, List.length_cons, List.length_nil]
  omega

theorem all_setEntry {α : Type} (m : List (String × α)) (k : String) (v : α)
    (f : String × α → Bool) (hm : m.all f = true) (hv : f (k, v) = true) :
    (setEntry m k v).all f = true := by
  induction m with
  | nil => simp [setEntry, hv]
  | cons e rest ih =>
    simp only [List.all_cons, Bool.and_eq_true] at hm
    by_cases h : e.1 = k
    · simp [setEntry, h, List.all_cons, hv, hm.2]
    · simp [setEntry, h, List.all_cons, hm.1, ih hm.2]

theorem runChain_append (cfg : Config) (l1 l2 : List Ev) (st : GatewayState) :
    runChain cfg (l1 ++ l2) st =
      ((runChain cfg l1 st).1 ++ (runChain cfg l2 (runChain cfg l1 st).2).1,
       (runChain cfg l2 (runChain cfg l1 st).2).2) := by
  induction l1 generalizing st with
  | nil => simp [runChain]
  | cons u rest ih => simp [runChain, ih]

theorem runChain_length (cfg : Config) (l : List Ev) (st : GatewayState) :
    (runChain cfg l st).1.length = l.length := by
  induction l generalizing st with
  | nil => rfl
  | cons u rest ih => simp [runChain, ih]

/-- Router trace invariant: from any state whose outputs and gateway state
agree with sequentially processing some list `done` of units, executing any
interleaving of submissions and steps processes some further units `ext`
(taken from the front of the pending queue and the new submissions, in
order), and the queue plus processed units always account for every
submission. -/
theorem applyTrace_inv (cfg : Config) :
    ∀ (tr : List RouterAction) (st : RouterState) (done : List Ev) (gw0 : GatewayState),
      st.outputs = (runChain cfg done gw0).1 →
      st.gw = (runChain cfg done gw0).2 →
      ∃ ext : List Ev,
        (applyTrace cfg st tr).outputs = (runChain cfg (done ++ ext) gw0).1 ∧
        (applyTrace cfg st tr).gw = (runChain cfg (done ++ ext) gw0).2 ∧
        ext ++ (applyTrace cfg st tr).queue = st.queue ++ submissions tr := by
  intro tr
  induction tr with
  | nil =>
    intro st done gw0 h1 h2
    refine ⟨[], ?_, ?_, ?_⟩
    · simpa [applyTrace] using h1
    · simpa [applyTrace] using h2
    · simp [applyTrace, submissions]
  | cons a rest ih =>
    intro st done gw0 h1 h2
    cases a with
    | submit ev beh now =>
      obtain ⟨ext, e1, e2, e3⟩ :=
        ih { st with queue := st.queue ++ [(ev, beh, now)] } done gw0 h1 h2
      refine ⟨ext, ?_, ?_, ?_⟩
      · simpa [applyTrace, applyAction] using e1
      · simpa [applyTrace, applyAction] using e2
      · simp only [applyTrace, applyAction] at e3 ⊢
        simp only [submissions]
        rw [e3]
        simp
    | step =>
      cases hq : st.queue with
      | nil =>
        have hst : applyAction cfg st .step = st := by
          simp [applyAction, hq]
        obtain ⟨ext, e1, e2, e3⟩ := ih st done gw0 h1 h2
        refine ⟨ext, ?_, ?_, ?_⟩
        · simpa [applyTrace, hst] using e1
        · simpa [applyTrace, hst] using e2
        · simp only [applyTrace, hst, submissions]
          rw [e3, hq]
      | cons u q' =>
        have hst : applyAction cfg st .step =
            ⟨q', (runUnitT cfg u st.gw).2, st.outputs ++ [(runUnitT cfg u st.gw).1]⟩ := by
          simp [applyAction, hq]
        have key : runChain cfg (done ++ [u]) gw0 =
            ((runChain cfg done gw0).1 ++ [(runUnitT cfg u (runChain cfg done gw0).2).1],
             (runUnitT cfg u (runChain cfg done gw0).2).2) := by
          rw [runChain_append]
          simp [runChain]
        obtain ⟨ext, e1, e2, e3⟩ :=
          ih ⟨q', (runUnitT cfg u st.gw).2, st.outputs ++ [(runUnitT cfg u st.gw).1]⟩
            (done ++ [u]) gw0
            (by rw [key]; simp [h1, h2]) (by rw [key]; simp [h2])
        refine ⟨u :: ext, ?_, ?_, ?_⟩
        · simp only [applyTrace, hst]
          rw [e1]
          have : done ++ u :: ext = (done ++ [u]) ++ ext := by simp
          rw [this]
        · simp only [applyTrace, hst]
          rw [e2]
          have : done ++ u :: ext = (done ++ [u]) ++ ext := by simp
          rw [this]
        · simp only [applyTrace, hst, submissions] at e3 ⊢
          simp only [hq, List.cons_append]
          exact congrArg (List.cons u) e3

/-! ## Claim theorems -/

/-- Claim C2: for any interleaving of submissions and unit executions on one
conversation key, the outputs are exactly the results of processing the
submitted units strictly one at a time in submission (FIFO) order; the queue
always holds precisely the not-yet-executed submissions (none skipped), and
once the queue drains the outputs equal the full sequential processing of
every submission in order. -/
theorem c2_fifo_per_key (cfg : Config) (gw0 : GatewayState) (tr : List RouterAction) :
    (applyTrace cfg ⟨[], gw0, []⟩ tr).outputs =
      (runChain cfg ((submissions tr).take
        (applyTrace cfg ⟨[], gw0, []⟩ tr).outputs.length) gw0).1 ∧
      (applyTrace cfg ⟨[], gw0, []⟩ tr).queue =
        (submissions tr).drop (applyTrace cfg ⟨[], gw0, []⟩ tr).outputs.length ∧
      ((applyTrace cfg ⟨[], gw0, []⟩ tr).queue = [] →
        (applyTrace cfg ⟨[], gw0, []⟩ tr).outputs =
          (runChain cfg (submissions tr) gw0).1) := by
  obtain ⟨ext, e1, e2, e3⟩ := applyTrace_inv cfg tr ⟨[], gw0, []⟩ [] gw0 rfl rfl
  simp only [List.nil_append] at e1 e2 e3
  have hlen : (applyTrace cfg ⟨[], gw0, []⟩ tr).outputs.length = ext.length := by
    rw [e1, runChain_length]
  refine ⟨?_, ?_, ?_⟩
  · rw [hlen, ← e3, List.take_left, e1]
  · rw [hlen, ← e3, List.drop_left]
  · intro hempty
    rw [hempty, List.append_nil] at e3
    rw [e1, e3]

/-- Claim C1: a unit of work that fails (here: the dispatch throws) is caught
and becomes a resolved `none` outcome, so the next event on the same
conversation key is still processed and answered normally: the chain yields
`none` for turn N and a real reply for turn N+1. -/
theorem c1_failure_does_not_poison_chain
    (cfg : Config) (st : GatewayState) (e1 e2 : InboundEvent) (n1 n2 : Nat)
    (resp : AgentResponse) (r : String)
    (_hch : e1.channel = e2.channel) (_hchat : e1.chatId = e2.chatId)
    (hep : resolveEndpoint cfg e2.channel ≠ "")
    (hr : resp.reply = some r) (hr0 : r ≠ "") :
    (runChain cfg [(e1, .throws, n1), (e2, .responds (some resp), n2)] st).1 =
      [none, some { reply := r, sessionKey := e2.channel ++ ":" ++ e2.chatId }] := by
  have hthrow : ∀ st', (runUnit cfg e1 .throws n1 st').1 = none := by
    intro st'
    by_cases h : resolveEndpoint cfg e1.channel = ""
    · simp [runUnit, processMessage, h]
    · simp [runUnit, processMessage, h]
  have hok : ∀ st', (runUnit cfg e2 (.responds (some resp)) n2 st').1 =
      some { reply := r, sessionKey := e2.channel ++ ":" ++ e2.chatId } := by
    intro st'
    simp [runUnit, processMessage, sessionKeyOf, hr, hep, hr0]
  simp only [runChain, runUnitT]
  rw [hthrow, hok]

/-- Witness for C2 at a concrete interleaved trace whose queue drains. -/
theorem c2_fifo_per_key_witness :
    (applyTrace cfgM3 ⟨[], gwEmpty, []⟩ traceFix).outputs =
      (runChain cfgM3 (submissions traceFix) gwEmpty).1 :=
  (c2_fifo_per_key cfgM3 gwEmpty traceFix).2.2 (by decide)

/-- Witness for C1: a forced throw on turn 1 still lets turn 2 be answered. -/
theorem c1_failure_does_not_poison_chain_witness :
    (runChain cfgM3 [(mkEvent 1, .throws, 1),
        (mkEvent 2, .responds (some { reply := some "r2" }), 2)] gwEmpty).1 =
      [none,
       some { reply := "r2", sessionKey := (mkEvent 2).channel ++ ":" ++ (mkEvent 2).chatId }] :=
  c1_failure_does_not_poison_chain cfgM3 gwEmpty (mkEvent 1) (mkEvent 2) 1 2
    { reply := some "r2" } "r2" rfl rfl (by decide) rfl (by decide)

/-- Claim C10: a bash action whose command is missing or empty is denied
immediately, for every decision store (so the store is never consulted),
both through `_checkBash` directly and through `check`. -/
theorem c10_empty_bash_denied :
    ∀ ap : Approvals,
      checkBash ap none = .denied ∧
      checkBash ap (some "") = .denied ∧
      check ap "bash" { command := none } = .denied ∧
      check ap "bash" { command := some "" } = .denied := by
  intro ap
  exact ⟨rfl, rfl, rfl, rfl⟩

/-- Claim C8 (code bug evidence): `delete_file` is not in `MODERATE_TOOLS`,
so the moderate-tools branch that would allow a non-recursive delete by
default is unreachable; a `delete_file` request falls through to the
unknown-tool handling and needs approval even with `recursive` absent. -/
theorem c8_delete_file_not_moderate :
    check emptyApprovals "delete_file" { recursive := false, serialized := "sX" } =
        .needs_approval ∧
      check emptyApprovals "delete_file" { recursive := true, serialized := "sX" } =
        .needs_approval ∧
      moderateTools.contains "delete_file" = false ∧
      dangerousTools.contains "delete_file" = true := by
  decide

/-- Claim C7 (counterexample): `"echo sudo"` matches the danger pattern
`\bsudo\b`, yet its first request is allowed, not surfaced for a decision,
because the safe-command check on the leading token runs first. -/
theorem c7_cex_safe_base_preempts_danger :
    dangerousMatch (trimStr "echo sudo") = true ∧
      checkBash emptyApprovals (some "echo sudo") = .allowed ∧
      checkBash emptyApprovals (some "echo sudo") ≠ .needs_approval := by
  decide

/-- Claim C6 (code bug evidence): the blind-replacement sanitization maps the
two distinct legal session keys `"webchat:b.c"` and `"webchat:b_c"` to the
same storage file, so the key-to-storage mapping is not injective. -/
theorem c6_sanitize_not_injective :
    sessionPath "webchat:b.c" = sessionPath "webchat:b_c" ∧
      ("webchat:b.c" : String) ≠ "webchat:b_c" ∧
      sessionPath "webchat:b.c" = "webchat_b_c.jsonl" := by
  decide

/-- Claim C5 (code bug evidence): loading a constructed persisted history
whose assistant turns carry tokens recovers the most recent one (`T2`), but a
session saved by the gateway itself after a successful dispatch that returned
token `"T"` loses the token: the assistant turn is persisted without it, so a
fresh load from disk yields no continuation token even though the in-memory
session still holds `"T"`. -/
theorem c5_token_not_roundtripped :
    (loadSession { sessions := [], disk := [("webchat_c.jsonl", tokenHistory)] }
        "webchat:c" 100).1.conversationId = some "T2" ∧
      (getEntry savedAfterToken.sessions "webchat:c").map Session.conversationId =
        some (some "T") ∧
      (loadSession { sessions := [], disk := savedAfterToken.disk }
        "webchat:c" 200).1.conversationId = none := by
  decide

/-- Claim C4 (counterexample): on a dispatcher failure (`_callAgent` returns
`null`) the unit of work returns no reply and the in-memory session retains
the inbound turn, but nothing is persisted: `_saveSession` is never reached,
so the disk still has no file for the session. -/
theorem c4_cex_failure_not_persisted :
    (runUnit cfgM3 (mkEvent 1) (.responds none) 1 gwEmpty).1 = none ∧
      (runUnit cfgM3 (mkEvent 1) (.responds none) 1 gwEmpty).2.disk = [] ∧
      (getEntry (runUnit cfgM3 (mkEvent 1) (.responds none) 1 gwEmpty).2.sessions
          "webchat:c").map (fun s => s.history.map Turn.role) = some [.user] := by
  decide

/-- Claim C4 (amended): on a dispatcher failure (null response, missing or
empty reply field) the unit of work returns no reply and the in-memory
cached session retains the inbound user turn with no assistant turn
appended, but nothing is durably persisted: the disk is left unchanged. -/
theorem c4_failure_inbound_in_memory_only
    (cfg : Config) (ev : InboundEvent) (beh : AgentBehavior) (now : Nat)
    (st : GatewayState)
    (hfail : dispatchFails beh = true)
    (hep : resolveEndpoint cfg ev.channel ≠ "") :
    (runUnit cfg ev beh now st).1 = none ∧
      (runUnit cfg ev beh now st).2 = stateAfterInbound cfg ev now st ∧
      (stateAfterInbound cfg ev now st).disk = st.disk ∧
      getEntry (stateAfterInbound cfg ev now st).sessions (sessionKeyOf ev) =
        some (sessionAfterInbound cfg ev now st) ∧
      (sessionAfterInbound cfg ev now st).history =
        truncateHistory cfg
          ((loadSession st (sessionKeyOf ev) now).1.history ++ [userTurnOf ev now]) := by
  have h12 : (runUnit cfg ev beh now st).1 = none ∧
      (runUnit cfg ev beh now st).2 = stateAfterInbound cfg ev now st := by
    cases beh with
    | throws => simp [dispatchFails] at hfail
    | responds resp =>
      cases resp with
      | none => constructor <;> simp [runUnit, processMessage, hep]
      | some r0 =>
        cases hr : r0.reply with
        | none => constructor <;> simp [runUnit, processMessage, hep, hr]
        | some s =>
          have hs : s = "" := by
            simpa [dispatchFails, hr] using hfail
          subst hs
          constructor <;> simp [runUnit, processMessage, hep, hr]
  refine ⟨h12.1, h12.2, stateAfterInbound_disk cfg ev now st, ?_, rfl⟩
  unfold stateAfterInbound
  exact getEntry_setEntry_self _ _ _

/-- Claim C3 (amended): the history persisted at rest after any unit of work
never exceeds `maxHistory + 1` turns (truncation to `maxHistory` happens
before the assistant turn is appended): any state whose session files all
respect that bound still respects it after any unit of work. -/
theorem c3_bound_is_maxHistory_plus_one
    (cfg : Config) (ev : InboundEvent) (beh : AgentBehavior) (now : Nat)
    (st : GatewayState)
    (hb : diskBounded cfg st = true) :
    diskBounded cfg (runUnit cfg ev beh now st).2 = true := by
  by_cases hc : resolveEndpoint cfg ev.channel = ""
  · simpa [runUnit, processMessage, hc, diskBounded, stateAfterInbound_disk] using hb
  · cases beh with
    | throws =>
      simpa [runUnit, processMessage, hc, diskBounded, stateAfterInbound_disk] using hb
    | responds resp =>
      cases resp with
      | none =>
        simpa [runUnit, processMessage, hc, diskBounded, stateAfterInbound_disk] using hb
      | some r0 =>
        cases hr : r0.reply with
        | none =>
          simpa [runUnit, processMessage, hc, hr, diskBounded, stateAfterInbound_disk] using hb
        | some s =>
          by_cases hs : s = ""
          · simpa [runUnit, processMessage, hc, hr, hs, diskBounded,
              stateAfterInbound_disk] using hb
          · simp only [runUnit, processMessage, hr, if_neg hc, if_neg hs]
            simp only [diskBounded, saveSession] at hb ⊢
            rw [stateAfterInbound_disk]
            refine all_setEntry _ _ _ _ hb ?_
            simp only [decide_eq_true_eq]
            exact sessionAfterReply_length_le cfg ev now st r0 s

/-- Claim C7 (amended): for command strings that are stable under trimming
and not on the safe-command allow-list (neither leading token nor full
string), a danger-pattern match yields a needs-approval decision when the
store holds no record for the exact string; after recording an allow
decision for that exact string an identical request is allowed without
re-prompting; and a different such command string still needs approval. -/
theorem c7_danger_decision_flow
    (ap : Approvals) (cmd cmd2 : String)
    (hne : cmd ≠ "") (hne2 : cmd2 ≠ "")
    (htrim : trimStr cmd = cmd) (htrim2 : trimStr cmd2 = cmd2)
    (hsafe1 : firstToken cmd ∉ safeCommands)
    (hsafe1' : cmd ∉ safeCommands)
    (hdang : dangerousMatch cmd = true)
    (hsafe2 : firstToken cmd2 ∉ safeCommands)
    (hsafe2' : cmd2 ∉ safeCommands)
    (hdang2 : dangerousMatch cmd2 = true)
    (hf1 : "bash:" ++ cmd ∉ ap.allowed)
    (hf2 : "bash:" ++ cmd ∉ ap.denied)
    (hf3 : "bash:" ++ cmd2 ∉ ap.allowed)
    (hf4 : "bash:" ++ cmd2 ∉ ap.denied)
    (hdiff : cmd2 ≠ cmd) :
    checkBash ap (some cmd) = .needs_approval ∧
      checkBash (approve ap "bash" { command := some cmd } true) (some cmd) = .allowed ∧
      checkBash (approve ap "bash" { command := some cmd } true) (some cmd2) =
        .needs_approval := by
  have happ : approve ap "bash" { command := some cmd } true =
      { ap with allowed := ap.allowed ++ ["bash:" ++ cmd] } := by
    simp [approve, hf1]
  have hkey : ¬ ("bash:" ++ cmd2) = ("bash:" ++ cmd) := by
    intro h
    exact hdiff (string_append_right_inj h)
  refine ⟨?_, ?_, ?_⟩
  · simp [checkBash, hne, htrim, hsafe1, hsafe1', hdang, hf1, hf2]
  · rw [happ]
    simp [checkBash, hne, htrim, hsafe1, hsafe1', hdang]
  · rw [happ]
    simp [checkBash, hne2, htrim2, hsafe2, hsafe2', hdang2, hkey, hf3, hf4]

/-- Claim C9: the allowed list is consulted before the denied list for the
same canonical key, both in `_checkApproval` and in the danger branch of
`_checkBash`: a key present in the allowed list yields allowed even if it is
also in the denied list, and recording a deny decision afterwards leaves the
outcome allowed. -/
theorem c9_allowed_consulted_first
    (ap : Approvals) (tn : String) (input : ToolInput) (cmd : String)
    (hmem : tn ++ ":" ++ input.serialized ∈ ap.allowed)
    (hne : cmd ≠ "")
    (htrim : trimStr cmd = cmd)
    (hsafe1 : firstToken cmd ∉ safeCommands)
    (hsafe2 : cmd ∉ safeCommands)
    (hdang : dangerousMatch cmd = true)
    (hbash : "bash:" ++ cmd ∈ ap.allowed) :
    checkApproval ap tn input = .allowed ∧
      checkApproval (approve ap tn input false) tn input = .allowed ∧
      checkBash ap (some cmd) = .allowed := by
  have hallow : (approve ap tn input false).allowed = ap.allowed := by
    simp only [approve, Bool.false_eq_true, if_false]
    split <;> split <;> rfl
  refine ⟨?_, ?_, ?_⟩
  · simp [checkApproval, hmem]
  · simp [checkApproval, hallow, hmem]
  · simp [checkBash, hne, htrim, hsafe1, hsafe2, hdang, hbash]

/-- Witness for C4 at a concrete failing dispatch. -/
theorem c4_failure_inbound_in_memory_only_witness :
    (runUnit cfgM3 (mkEvent 1) (.responds none) 1 gwEmpty).1 = none :=
  (c4_failure_inbound_in_memory_only cfgM3 (mkEvent 1) (.responds none) 1 gwEmpty
    rfl (by decide)).1

/-- Witness for C3 (amended) on the already-populated five-pair state. -/
theorem c3_bound_is_maxHistory_plus_one_witness :
    diskBounded cfgM3 (runUnit cfgM3 (mkEvent 2) (okBehavior 2) 2
        (runChain cfgM3 fivePairs gwEmpty).2).2 = true :=
  c3_bound_is_maxHistory_plus_one cfgM3 (mkEvent 2) (okBehavior 2) 2
    (runChain cfgM3 fivePairs gwEmpty).2 (by decide)

/-- Witness for C7 (amended) at the spec's own example commands. -/
theorem c7_danger_decision_flow_witness :
    checkBash emptyApprovals (some "rm -rf /tmp/x") = .needs_approval ∧
      checkBash (approve emptyApprovals "bash" { command := some "rm -rf /tmp/x" } true)
        (some "rm -rf /tmp/x") = .allowed ∧
      checkBash (approve emptyApprovals "bash" { command := some "rm -rf /tmp/x" } true)
        (some "rm -rf /tmp/y") = .needs_approval :=
  c7_danger_decision_flow emptyApprovals "rm -rf /tmp/x" "rm -rf /tmp/y"
    (by decide) (by decide) (by decide) (by decide) (by decide) (by decide) (by decide)
    (by decide) (by decide) (by decide) (by decide) (by decide) (by decide) (by decide)
    (by decide)

/-- Witness for C9 on a store holding the key in both lists. -/
theorem c9_allowed_consulted_first_witness :
    checkApproval apBoth "foo" { serialized := "x" } = .allowed ∧
      checkApproval (approve apBoth "foo" { serialized := "x" } false) "foo"
        { serialized := "x" } = .allowed ∧
      checkBash apBoth (some "rm -rf /tmp/x") = .allowed :=
  c9_allowed_consulted_first apBoth "foo" { serialized := "x" } "rm -rf /tmp/x"
    (by decide) (by decide) (by decide) (by decide) (by decide) (by decide) (by decide)

/-- Claim C3 (counterexample): with `maxHistory = 3`, after five successful
inbound/outbound turn pairs the persisted session holds 4 turns, not 3:
truncation happens before the assistant turn is appended, so the file at rest
reaches `maxHistory + 1` turns. -/
theorem c3_cex_persisted_exceeds_bound :
    cfgM3.maxHistory = 3 ∧
      (getEntry (runChain cfgM3 fivePairs gwEmpty).2.disk
          (sessionPath "webchat:c")).map List.length = some 4 ∧
      ¬ (getEntry (runChain cfgM3 fivePairs gwEmpty).2.disk
          (sessionPath "webchat:c")).map List.length = some 3 := by
  decide

end Empli
